import Mathlib

/-!
Shallow embedding of the order-lifecycle and query-bridge logic of the
e-commerce backend in `src/main.py` (Flask + SQLAlchemy + Postgres),
together with proofs about the claims of the specification.

Modelling conventions:
* SQLAlchemy `Numeric` columns (prices, totals) are modelled as `ℚ`
  (exact decimal arithmetic, never floating point).
* `Integer` columns are `Int`.
* A JSON request body field that may be absent is an `Option`.
* Python truthiness (`if not x`) on the three request fields is modelled
  by `truthyId` / `truthyStr` / `truthyItems`: `None`, `0`, `""` and `[]`
  are all falsy.
* `datetime.date` is `PyDate` (year, month, day) and
  `date.fromisoformat` is `fromisoformat`, accepting exactly the
  `YYYY-MM-DD` form with calendar validity (month 1–12, day within the
  month, leap years, year 1–9999); on any other string Python raises
  `ValueError`, modelled by returning `none` and surfacing as an
  uncaught-exception outcome.
* `date.today()` is passed explicitly as the `today` argument.
* The database session is a `DBState` value threaded through each
  handler; `db.session.commit()`/rollback semantics are modelled by
  returning the original state on every non-success outcome.
* The schema (lines 22–60 of `main.py`) declares
  `orders.customer_id` as a non-nullable foreign key into `customers`;
  `create_order` itself never checks the customer, so the
  `db.session.flush()` on line 148 raises `IntegrityError` when the
  customer does not exist.  This storage-enforced check is modelled by
  the `customerExists` test in `create_order`, whose failure produces an
  uncaught-exception outcome with the transaction rolled back.
* An uncaught Python exception surfaces as HTTP 500 (`.exception`),
  distinct from the handler-produced 400/404 error responses.
-/

namespace ECommerce

/-- Row of the `customers` table (`main.py` lines 22–33). -/
structure Customer where
  customer_id : Int
  first_name : String
  last_name : String
  email : String
  phone : Option String
  address : Option String
  city : Option String
  zip_code : Option String
deriving DecidableEq

/-- Row of the `products` table (`main.py` lines 35–43). -/
structure Product where
  product_id : Int
  product_name : String
  description : Option String
  category : Option String
  price : ℚ
  stock_quantity : Int
deriving DecidableEq

/-- Calendar date, as Python `datetime.date`. -/
structure PyDate where
  year : Int
  month : Int
  day : Int
deriving DecidableEq

/-- Row of the `orders` table (`main.py` lines 45–52). -/
structure Order where
  order_id : Int
  customer_id : Int
  order_date : PyDate
  total_amount : ℚ
  status : String
deriving DecidableEq

/-- Row of the `order_items` table (`main.py` lines 54–60). -/
structure OrderItem where
  order_item_id : Int
  order_id : Int
  product_id : Int
  quantity : Int
  price : ℚ
deriving DecidableEq

/-- The database state: the four tables plus the primary-key sequences
that assign `order_id` and `order_item_id` to newly inserted rows. -/
structure DBState where
  customers : List Customer
  products : List Product
  orders : List Order
  order_items : List OrderItem
  next_order_id : Int
  next_order_item_id : Int
deriving DecidableEq

/-- One element of the `items` array of a create-order request body. -/
structure ItemReq where
  product_id : Int
  quantity : Int
deriving DecidableEq

/-- JSON body of a `POST /orders` request; each field may be absent. -/
structure OrderReq where
  customer_id : Option Int
  order_date : Option String
  items : Option (List ItemReq)
deriving DecidableEq

/-- Python truthiness of the `customer_id` field: `None` and `0` are falsy. -/
def truthyId : Option Int → Bool
  | none => false
  | some n => n != 0

/-- Python truthiness of the `order_date` field: `None` and `""` are falsy. -/
def truthyStr : Option String → Bool
  | none => false
  | some s => s != ""

/-- Python truthiness of the `items` field: `None` and `[]` are falsy. -/
def truthyItems : Option (List ItemReq) → Bool
  | none => false
  | some l => !l.isEmpty

/-- Python leap-year rule (`calendar.isleap`). -/
def isLeapYear (y : Int) : Bool :=
  y % 4 == 0 && (y % 100 != 0 || y % 400 == 0)

/-- Number of days in a month of a given year. -/
def daysInMonth (y m : Int) : Int :=
  if m == 2 then (if isLeapYear y then 29 else 28)
  else if m == 4 || m == 6 || m == 9 || m == 11 then 30
  else 31

/-- Numeric value of a decimal digit character, `none` otherwise. -/
def digitVal (c : Char) : Option Nat :=
  if '0' ≤ c ∧ c ≤ '9' then some (c.toNat - '0'.toNat) else none

/-- Python `date.fromisoformat` on the `YYYY-MM-DD` form: `none` models
the `ValueError` Python raises on any string that is not a valid
calendar date in that form. -/
def fromisoformat (s : String) : Option PyDate :=
  match s.toList with
  | [y1, y2, y3, y4, s1, m1, m2, s2, d1, d2] =>
    if s1 = '-' ∧ s2 = '-' then
      match digitVal y1, digitVal y2, digitVal y3, digitVal y4,
            digitVal m1, digitVal m2, digitVal d1, digitVal d2 with
      | some a, some b, some c, some d, some e, some f, some g, some h =>
        let y : Int := (a * 1000 + b * 100 + c * 10 + d : Nat)
        let m : Int := (e * 10 + f : Nat)
        let dd : Int := (g * 10 + h : Nat)
        if 1 ≤ y ∧ y ≤ 9999 ∧ 1 ≤ m ∧ m ≤ 12 ∧ 1 ≤ dd ∧ dd ≤ daysInMonth y m then
          some ⟨y, m, dd⟩
        else none
      | _, _, _, _, _, _, _, _ => none
    else none
  | _ => none

/-- Strict `<` on dates (Python date comparison), lexicographic. -/
def dateLt (a b : PyDate) : Bool :=
  if a.year < b.year then true
  else if b.year < a.year then false
  else if a.month < b.month then true
  else if b.month < a.month then false
  else if a.day < b.day then true
  else false

/-- The five distinct 400-error responses `create_order` can produce
(`main.py` lines 128, 131, 135, 141, 143). -/
inductive CreateErr where
  | missingFields
  | tooManyItems
  | pastDate
  | productNotFound (product_id : Int)
  | insufficientStock (product_name : String)
deriving DecidableEq

/-- The literal JSON error message of each `create_order` 400 response. -/
def errorMessage : CreateErr → String
  | .missingFields => "customer_id, order_date, and items are required"
  | .tooManyItems => "Cannot add more than 5 items per order"
  | .pastDate => "Order date cannot be in the past"
  | .productNotFound pid => "Product " ++ toString pid ++ " not found"
  | .insufficientStock nm => "Insufficient stock for " ++ nm

/-- Outcome of a `POST /orders` request: HTTP 201 with the new order id,
an HTTP 400 error response, or an uncaught exception (HTTP 500). -/
inductive CreateOutcome where
  | created (order_id : Int)
  | error (e : CreateErr)
  | exception (msg : String)
deriving DecidableEq

/-- HTTP status code of a `create_order` outcome. -/
def createStatus : CreateOutcome → Nat
  | .created _ => 201
  | .error _ => 400
  | .exception _ => 500

/-- Primary-key lookup `Product.query.get(pid)`. -/
def findProduct (ps : List Product) (pid : Int) : Option Product :=
  ps.find? (fun p => p.product_id == pid)

/-- Membership test behind the `orders.customer_id` foreign-key
constraint (`main.py` line 48), which the storage engine enforces at
`db.session.flush()`. -/
def customerExists (cs : List Customer) (cid : Int) : Bool :=
  cs.any (fun c => c.customer_id == cid)

/-- The validation loop of `create_order` (`main.py` lines 137–144):
walks the items left to right against the current, unmutated product
table, failing on the first missing product or per-item stock shortage,
and accumulates `total_amount += product.price * item["quantity"]`. -/
def validateItems (ps : List Product) : List ItemReq → ℚ → Except CreateErr ℚ
  | [], total => .ok total
  | item :: rest, total =>
    match findProduct ps item.product_id with
    | none => .error (.productNotFound item.product_id)
    | some product =>
      if product.stock_quantity < item.quantity then
        .error (.insufficientStock product.product_name)
      else
        validateItems ps rest (total + product.price * (item.quantity : ℚ))

/-- The mutation loop of `create_order` (`main.py` lines 150–157): for
each item, re-fetch the product, insert one `OrderItem` row snapshotting
the product price, and decrement the product stock.  The `none` branch
models the `AttributeError` Python would raise if the product had
vanished (unreachable after a successful validation loop). -/
def insertItems (oid : Int) : DBState → List ItemReq → Except String DBState
  | st, [] => .ok st
  | st, item :: rest =>
    match findProduct st.products item.product_id with
    | none => .error "AttributeError: NoneType object has no attribute product_id"
    | some product =>
      insertItems oid
        { st with
          products := st.products.map (fun p =>
            if p.product_id == item.product_id then
              { p with stock_quantity := p.stock_quantity - item.quantity }
            else p),
          order_items := st.order_items ++
            [{ order_item_id := st.next_order_item_id, order_id := oid,
               product_id := product.product_id, quantity := item.quantity,
               price := product.price }],
          next_order_item_id := st.next_order_item_id + 1 }
        rest

/-- The `POST /orders` handler `create_order` (`main.py` lines 121–160):
missing-field check by Python truthiness, item-count check, date parse
(uncaught `ValueError` on an unparseable string), past-date check,
per-item product/stock validation with total accumulation, then the
mutation phase (order insert — where the foreign-key constraint on
`customer_id` fires at flush — item inserts and stock decrements),
committing on success and rolling back on an exception. -/
def create_order (today : PyDate) (st : DBState) (data : OrderReq) : CreateOutcome × DBState :=
  if !(truthyId data.customer_id && truthyStr data.order_date && truthyItems data.items) then
    (.error .missingFields, st)
  else
    let customer_id := data.customer_id.getD 0
    let order_date_str := data.order_date.getD ""
    let items := (data.items).getD []
    if 5 < items.length then
      (.error .tooManyItems, st)
    else
      match fromisoformat order_date_str with
      | none => (.exception ("ValueError: invalid isoformat string " ++ order_date_str), st)
      | some order_date_obj =>
        if dateLt order_date_obj today then
          (.error .pastDate, st)
        else
          match validateItems st.products items 0 with
          | .error e => (.error e, st)
          | .ok total_amount =>
            if !customerExists st.customers customer_id then
              (.exception "IntegrityError: insert into orders violates foreign key constraint orders_customer_id_fkey", st)
            else
              let oid := st.next_order_id
              match insertItems oid st items with
              | .error m => (.exception m, st)
              | .ok st1 =>
                (.created oid,
                 { st1 with
                   orders := st1.orders ++
                     [{ order_id := oid, customer_id := customer_id,
                        order_date := order_date_obj, total_amount := total_amount,
                        status := "Pending" }],
                   next_order_id := oid + 1 })

/-- Outcome of a `DELETE /orders/{id}` request: HTTP 200, HTTP 404, or
an uncaught exception (HTTP 500). -/
inductive DeleteOutcome where
  | deleted
  | notFound
  | exception (msg : String)
deriving DecidableEq

/-- HTTP status code of a `delete_order` outcome. -/
def deleteStatus : DeleteOutcome → Nat
  | .deleted => 200
  | .notFound => 404
  | .exception _ => 500

/-- The stock-restoration loop of `delete_order` (`main.py` lines
185–188): for each item of the order, re-fetch the product and
increment its stock by the item quantity.  The `none` branch models the
`AttributeError` Python would raise on a dangling `product_id`. -/
def restoreItems : List Product → List OrderItem → Except String (List Product)
  | ps, [] => .ok ps
  | ps, item :: rest =>
    match findProduct ps item.product_id with
    | none => .error "AttributeError: NoneType object has no attribute stock_quantity"
    | some _ =>
      restoreItems
        (ps.map (fun p =>
          if p.product_id == item.product_id then
            { p with stock_quantity := p.stock_quantity + item.quantity }
          else p))
        rest

/-- The `DELETE /orders/{order_id}` handler `delete_order` (`main.py`
lines 162–192): primary-key lookup of the order (404 when absent), stock
restoration for every `OrderItem` of the order (`order.items` is the set
of rows whose `order_id` matches), deletion of those rows and of the
order row, then commit. -/
def delete_order (st : DBState) (order_id : Int) : DeleteOutcome × DBState :=
  match st.orders.find? (fun o => o.order_id == order_id) with
  | none => (.notFound, st)
  | some _ =>
    match restoreItems st.products (st.order_items.filter (fun it => it.order_id == order_id)) with
    | .error m => (.exception m, st)
    | .ok ps =>
      (.deleted,
       { st with
         products := ps,
         order_items := st.order_items.filter (fun it => !(it.order_id == order_id)),
         orders := st.orders.filter (fun o => !(o.order_id == order_id)) })

/-- Outcome of a `POST /genai-query` request: HTTP 200 with the
generated SQL text and the rows serialized as column-name-to-value
mappings, or HTTP 400 with an error message. -/
inductive GenAIOutcome where
  | ok (sql : String) (result : List (List (String × String)))
  | error (msg : String)
deriving DecidableEq

/-- HTTP status code of a `genai_query` outcome. -/
def genaiStatus : GenAIOutcome → Nat
  | .ok _ _ => 200
  | .error _ => 400

/-- The prompt string built on `main.py` line 240. -/
def genaiPrompt (q : String) : String :=
  "Convert this natural language query into SQL for tables Customers, Products, Orders, Order_Items:\n"
    ++ q ++ "\nSQL:"

/-- The `POST /genai-query` handler `genai_query` (`main.py` lines
197–253).  The external text-completion service and the SQL execution
against the storage layer are the two oracles `complete` and `execute`
(each called at most once — there is no retry); `.error` on an oracle
models the exception caught on line 252, whose message is returned
verbatim with status 400.  Rows are modelled already in their
`dict(row._mapping)` column-name-to-value form. -/
def genai_query (data : Option String)
    (complete : String → Except String String)
    (execute : String → Except String (List (List (String × String)))) : GenAIOutcome :=
  match data with
  | none => .error "Query is required"
  | some q =>
    if q = "" then .error "Query is required"
    else
      match complete (genaiPrompt q) with
      | .error e => .error e
      | .ok text =>
        let sql_query := text.trim
        match execute sql_query with
        | .error e => .error e
        | .ok result => .ok sql_query result

/-- The `GET /ping` handler (`main.py` lines 256–258). -/
def ping : String := "pong"

/-! Derived notions used to state the claims. -/

/-- Total quantity requested for a given product across all items of a
request (a product referenced by several items accumulates all of
them). -/
def netQty : List ItemReq → Int → Int
  | [], _ => 0
  | item :: rest, pid =>
    (if item.product_id == pid then item.quantity else 0) + netQty rest pid

/-- Total quantity recorded for a given product across a list of
`OrderItem` rows. -/
def netQtyRows : List OrderItem → Int → Int
  | [], _ => 0
  | item :: rest, pid =>
    (if item.product_id == pid then item.quantity else 0) + netQtyRows rest pid

/-- The exact sum over items of (product price at validation time ×
requested quantity). -/
def itemsTotal (ps : List Product) : List ItemReq → ℚ
  | [] => 0
  | item :: rest =>
    (match findProduct ps item.product_id with
     | some p => p.price * (item.quantity : ℚ)
     | none => 0) + itemsTotal ps rest

/-- The `OrderItem` rows a successful `create_order` inserts: one per
request item, in order, with consecutive ids from `nid`, each
snapshotting the price of the referenced product. -/
def mkItems (ps : List Product) (oid : Int) : Int → List ItemReq → List OrderItem
  | _, [] => []
  | nid, item :: rest =>
    (match findProduct ps item.product_id with
     | some p => [{ order_item_id := nid, order_id := oid,
                    product_id := p.product_id, quantity := item.quantity,
                    price := p.price }]
     | none => []) ++ mkItems ps oid (nid + 1) rest

/-- Product table after decrementing every product by the total
quantity the request asks of it. -/
def decAll (its : List ItemReq) (ps : List Product) : List Product :=
  ps.map (fun p => { p with stock_quantity := p.stock_quantity - netQty its p.product_id })

/-- Product table after incrementing every product by the total
quantity a list of `OrderItem` rows records for it. -/
def incAll (its : List OrderItem) (ps : List Product) : List Product :=
  ps.map (fun p => { p with stock_quantity := p.stock_quantity + netQtyRows its p.product_id })

/-- Decidable form of the §4.1 per-item validation: the referenced
product exists and its stock covers the item quantity. -/
def itemOK (ps : List Product) (item : ItemReq) : Bool :=
  match findProduct ps item.product_id with
  | none => false
  | some p => decide (item.quantity ≤ p.stock_quantity)

/-- Freshness of the primary-key sequence: every existing order row and
order-item row carries an `order_id` below the next value the sequence
will hand out.  Any state built from an empty table by the handlers
satisfies this. -/
def freshState (st : DBState) : Bool :=
  st.orders.all (fun o => decide (o.order_id < st.next_order_id)) &&
  st.order_items.all (fun it => decide (it.order_id < st.next_order_id))

/-! Concrete fixtures used by witnesses and counterexamples. -/

/-- A fixed current date used by the concrete scenarios. -/
def today0 : PyDate := ⟨2025, 10, 12⟩

/-- A product with price 5 and stock 10. -/
def widget : Product :=
  { product_id := 1, product_name := "Widget", description := none,
    category := none, price := 5, stock_quantity := 10 }

/-- A customer with id 1. -/
def ada : Customer :=
  { customer_id := 1, first_name := "Ada", last_name := "Lovelace",
    email := "ada@example.com", phone := none, address := none,
    city := none, zip_code := none }

/-- A customer whose id is 0 (a legal database row, but a falsy value
for the request-body check). -/
def zeroCustomer : Customer :=
  { customer_id := 0, first_name := "Zed", last_name := "Zero",
    email := "zed@example.com", phone := none, address := none,
    city := none, zip_code := none }

/-- Base state: one customer, one product, no orders. -/
def st0 : DBState :=
  { customers := [ada], products := [widget], orders := [],
    order_items := [], next_order_id := 1, next_order_item_id := 1 }

/-- A fully valid request: customer 1, date equal to `today0`, one item
of 3 widgets. -/
def req0 : OrderReq :=
  { customer_id := some 1, order_date := some "2025-10-12",
    items := some [{ product_id := 1, quantity := 3 }] }

/-- Base state extended with the id-0 customer row. -/
def stZ : DBState := { st0 with customers := [ada, zeroCustomer] }

/-- Request identical to `req0` but naming customer 0 (present, falsy). -/
def reqZero : OrderReq := { req0 with customer_id := some 0 }

/-- Request identical to `req0` but naming customer 7, which no state
used here contains. -/
def reqGhost : OrderReq := { req0 with customer_id := some 7 }

/-- Request identical to `req0` but with a date string of the right
shape that is not a calendar date (month 13). -/
def reqBadDate : OrderReq := { req0 with order_date := some "2025-13-40" }

/-- Request identical to `req0` but with an impossible February date. -/
def reqBadFeb : OrderReq := { req0 with order_date := some "2025-02-30" }

/-- Request whose two items both name product 1 with quantity 6: each
item alone is covered by the stock of 10, their sum 12 is not. -/
def reqDup : OrderReq :=
  { req0 with items := some [{ product_id := 1, quantity := 6 }, { product_id := 1, quantity := 6 }] }

/-- Request with six single-widget items. -/
def reqSix : OrderReq :=
  { req0 with items := some (List.replicate 6 { product_id := 1, quantity := 1 }) }

/-- Request with the `customer_id` field absent. -/
def reqNoCust : OrderReq := { req0 with customer_id := none }

/-- The explicit post-state of a successful `create_order` on a state
`st`: products decremented by the net requested quantities, the new
order row appended with the computed total and default status
"Pending", one order-item row per request item appended, and both
primary-key sequences advanced. -/
def createdState (st : DBState) (c : Int) (d : PyDate) (its : List ItemReq) : DBState :=
  { st with
    products := decAll its st.products,
    orders := st.orders ++
      [{ order_id := st.next_order_id, customer_id := c, order_date := d,
         total_amount := itemsTotal st.products its, status := "Pending" }],
    order_items := st.order_items ++ mkItems st.products st.next_order_id st.next_order_item_id its,
    next_order_id := st.next_order_id + 1,
    next_order_item_id := st.next_order_item_id + its.length }

/-! Lemmas about product lookup under stock-only updates. -/

theorem find?_map_of_pres {f : Product → Product}
    (hf : ∀ p, (f p).product_id = p.product_id) (ps : List Product) (pid : Int) :
    (ps.map f).find? (fun p => p.product_id == pid) =
      ((ps.find? (fun p => p.product_id == pid)).map f) := by
  induction ps with
  | nil => rfl
  | cons p rest ih =>
    simp only [List.map_cons, List.find?_cons, hf p]
    cases hp : (p.product_id == pid) with
    | true => rfl
    | false => exact ih

theorem findProduct_map {f : Product → Product}
    (hf : ∀ p, (f p).product_id = p.product_id) (ps : List Product) (pid : Int) :
    findProduct (ps.map f) pid = (findProduct ps pid).map f :=
  find?_map_of_pres hf ps pid

theorem findProduct_map_isSome {f : Product → Product}
    (hf : ∀ p, (f p).product_id = p.product_id) (ps : List Product) (pid : Int) :
    (findProduct (ps.map f) pid).isSome = (findProduct ps pid).isSome := by
  rw [findProduct_map hf]
  cases findProduct ps pid <;> rfl

theorem findProduct_mem_eq {ps : List Product} {pid : Int} {p : Product}
    (h : findProduct ps pid = some p) : p ∈ ps ∧ p.product_id = pid := by
  constructor
  · exact List.mem_of_find?_eq_some h
  · have := List.find?_some h
    exact beq_iff_eq.mp this

theorem stock_update_id (item : ItemReq) (p : Product) :
    ((if p.product_id == item.product_id then
        { p with stock_quantity := p.stock_quantity - item.quantity } else p) : Product).product_id
      = p.product_id := by
  by_cases h : (p.product_id == item.product_id) = true <;> simp [h]

theorem stock_restore_id (item : OrderItem) (p : Product) :
    ((if p.product_id == item.product_id then
        { p with stock_quantity := p.stock_quantity + item.quantity } else p) : Product).product_id
      = p.product_id := by
  by_cases h : (p.product_id == item.product_id) = true <;> simp [h]

theorem stock_update_price (item : ItemReq) (p : Product) :
    ((if p.product_id == item.product_id then
        { p with stock_quantity := p.stock_quantity - item.quantity } else p) : Product).price
      = p.price := by
  by_cases h : (p.product_id == item.product_id) = true <;> simp [h]

/-! Lemmas about the net-quantity accounting. -/

theorem netQty_nil (pid : Int) : netQty [] pid = 0 := rfl

theorem netQty_eq_zero_of_not_mem {its : List ItemReq} {pid : Int}
    (h : pid ∉ its.map (fun it => it.product_id)) : netQty its pid = 0 := by
  induction its with
  | nil => rfl
  | cons item rest ih =>
    simp only [List.map_cons, List.mem_cons, not_or] at h
    have h1 : (item.product_id == pid) = false := beq_eq_false_iff_ne.mpr (fun he => h.1 he.symm)
    simp [netQty, h1, ih h.2]

theorem netQty_nodup {its : List ItemReq}
    (h : (its.map (fun it => it.product_id)).Nodup) (pid : Int) :
    netQty its pid = 0 ∨ ∃ item ∈ its, item.product_id = pid ∧ netQty its pid = item.quantity := by
  induction its with
  | nil => exact Or.inl rfl
  | cons item rest ih =>
    rw [List.map_cons, List.nodup_cons] at h
    by_cases hp : item.product_id = pid
    · refine Or.inr ⟨item, List.mem_cons_self _ _, hp, ?_⟩
      have h0 : netQty rest pid = 0 := netQty_eq_zero_of_not_mem (by rw [← hp]; exact h.1)
      simp [netQty, beq_iff_eq.mpr hp, h0]
    · have h1 : (item.product_id == pid) = false := beq_eq_false_iff_ne.mpr hp
      rcases ih h.2 with h0 | ⟨it, hmem, hpid, hq⟩
      · exact Or.inl (by simp [netQty, h1, h0])
      · exact Or.inr ⟨it, List.mem_cons_of_mem _ hmem, hpid, by simp [netQty, h1, hq]⟩

theorem netQtyRows_nonneg (rows : List OrderItem)
    (h : ∀ it ∈ rows, 0 ≤ it.quantity) (pid : Int) : 0 ≤ netQtyRows rows pid := by
  induction rows with
  | nil => simp [netQtyRows]
  | cons item rest ih =>
    have h1 := h item (List.mem_cons_self _ _)
    have h2 := ih (fun it hm => h it (List.mem_cons_of_mem _ hm))
    by_cases hp : (item.product_id == pid) = true <;> simp [netQtyRows, hp] <;> omega

/-! Algebra of the stock folds. -/

theorem decAll_nil (ps : List Product) : decAll [] ps = ps := by
  have : ps.map (fun p => ({ p with stock_quantity := p.stock_quantity - netQty [] p.product_id } : Product)) = ps.map id := by
    apply List.map_congr_left
    intro p _
    cases p
    simp [netQty]
  rw [decAll, this, List.map_id]

theorem incAll_nil (ps : List Product) : incAll [] ps = ps := by
  have : ps.map (fun p => ({ p with stock_quantity := p.stock_quantity + netQtyRows [] p.product_id } : Product)) = ps.map id := by
    apply List.map_congr_left
    intro p _
    cases p
    simp [netQtyRows]
  rw [incAll, this, List.map_id]

theorem decAll_cons (item : ItemReq) (rest : List ItemReq) (ps : List Product) :
    decAll rest (ps.map (fun p =>
      if p.product_id == item.product_id then
        { p with stock_quantity := p.stock_quantity - item.quantity } else p)) =
    decAll (item :: rest) ps := by
  unfold decAll
  rw [List.map_map]
  apply List.map_congr_left
  intro p _
  simp only [Function.comp]
  by_cases hp : p.product_id = item.product_id
  · have h1 : (p.product_id == item.product_id) = true := beq_iff_eq.mpr hp
    have h2 : (item.product_id == p.product_id) = true := beq_iff_eq.mpr hp.symm
    cases p
    simp only [h1, if_pos] at *
    simp [netQty, h2]
    omega
  · have h1 : (p.product_id == item.product_id) = false := beq_eq_false_iff_ne.mpr hp
    have h2 : (item.product_id == p.product_id) = false :=
      beq_eq_false_iff_ne.mpr (fun he => hp he.symm)
    cases p
    simp [h1, netQty, h2]

theorem incAll_cons (item : OrderItem) (rest : List OrderItem) (ps : List Product) :
    incAll rest (ps.map (fun p =>
      if p.product_id == item.product_id then
        { p with stock_quantity := p.stock_quantity + item.quantity } else p)) =
    incAll (item :: rest) ps := by
  unfold incAll
  rw [List.map_map]
  apply List.map_congr_left
  intro p _
  simp only [Function.comp]
  by_cases hp : p.product_id = item.product_id
  · have h1 : (p.product_id == item.product_id) = true := beq_iff_eq.mpr hp
    have h2 : (item.product_id == p.product_id) = true := beq_iff_eq.mpr hp.symm
    cases p
    simp only [h1, if_pos] at *
    simp [netQtyRows, h2]
    omega
  · have h1 : (p.product_id == item.product_id) = false := beq_eq_false_iff_ne.mpr hp
    have h2 : (item.product_id == p.product_id) = false :=
      beq_eq_false_iff_ne.mpr (fun he => hp he.symm)
    cases p
    simp [h1, netQtyRows, h2]

theorem incAll_decAll {rows : List OrderItem} {its : List ItemReq}
    (hq : ∀ pid, netQtyRows rows pid = netQty its pid) (ps : List Product) :
    incAll rows (decAll its ps) = ps := by
  unfold incAll decAll
  rw [List.map_map]
  have : ps.map ((fun p => ({ p with stock_quantity := p.stock_quantity + netQtyRows rows p.product_id } : Product)) ∘
      (fun p => ({ p with stock_quantity := p.stock_quantity - netQty its p.product_id } : Product))) = ps.map id := by
    apply List.map_congr_left
    intro p _
    cases p
    simp [Function.comp, hq]
  rw [this, List.map_id]

/-! Lemmas about the inserted order-item rows. -/

theorem mkItems_map {f : Product → Product}
    (hid : ∀ p, (f p).product_id = p.product_id)
    (hpr : ∀ p, (f p).price = p.price)
    (ps : List Product) (oid : Int) :
    ∀ (its : List ItemReq) (nid : Int), mkItems (ps.map f) oid nid its = mkItems ps oid nid its := by
  intro its
  induction its with
  | nil => intro nid; rfl
  | cons item rest ih =>
    intro nid
    simp only [mkItems, findProduct_map hid]
    cases hf : findProduct ps item.product_id with
    | none => simp [ih]
    | some p => simp [hid, hpr, ih]

theorem mkItems_order_id (ps : List Product) (oid : Int) :
    ∀ (its : List ItemReq) (nid : Int) (it : OrderItem),
      it ∈ mkItems ps oid nid its → it.order_id = oid := by
  intro its
  induction its with
  | nil => intro nid it h; cases h
  | cons item rest ih =>
    intro nid it h
    simp only [mkItems] at h
    cases hf : findProduct ps item.product_id with
    | none => rw [hf] at h; simp only [List.nil_append] at h; exact ih _ _ h
    | some p =>
      rw [hf] at h
      rcases List.mem_append.mp h with h1 | h2
      · rw [List.mem_singleton.mp h1]
      · exact ih _ _ h2

theorem mkItems_product_ids (ps : List Product) (oid : Int) :
    ∀ (its : List ItemReq) (nid : Int) (it : OrderItem),
      it ∈ mkItems ps oid nid its → ∃ item ∈ its, it.product_id = item.product_id := by
  intro its
  induction its with
  | nil => intro nid it h; cases h
  | cons item rest ih =>
    intro nid it h
    simp only [mkItems] at h
    cases hf : findProduct ps item.product_id with
    | none =>
      rw [hf] at h
      simp only [List.nil_append] at h
      rcases ih _ _ h with ⟨a, ha, he⟩
      exact ⟨a, List.mem_cons_of_mem _ ha, he⟩
    | some p =>
      rw [hf] at h
      rcases List.mem_append.mp h with h1 | h2
      · rw [List.mem_singleton.mp h1]
        exact ⟨item, List.mem_cons_self _ _, (findProduct_mem_eq hf).2⟩
      · rcases ih _ _ h2 with ⟨a, ha, he⟩
        exact ⟨a, List.mem_cons_of_mem _ ha, he⟩

theorem netQtyRows_mkItems (ps : List Product) (oid : Int) :
    ∀ (its : List ItemReq),
      (∀ item ∈ its, (findProduct ps item.product_id).isSome = true) →
      ∀ (nid : Int) (pid : Int), netQtyRows (mkItems ps oid nid its) pid = netQty its pid := by
  intro its
  induction its with
  | nil => intro _ nid pid; rfl
  | cons item rest ih =>
    intro hv nid pid
    have hs := hv item (List.mem_cons_self _ _)
    cases hf : findProduct ps item.product_id with
    | none => rw [hf] at hs; cases hs
    | some p =>
      have hpid : p.product_id = item.product_id := (findProduct_mem_eq hf).2
      simp only [mkItems, hf, List.singleton_append, netQtyRows, netQty, hpid]
      rw [ih (fun a ha => hv a (List.mem_cons_of_mem _ ha))]

theorem mkItems_length (ps : List Product) (oid : Int) :
    ∀ (its : List ItemReq),
      (∀ item ∈ its, (findProduct ps item.product_id).isSome = true) →
      ∀ (nid : Int), (mkItems ps oid nid its).length = its.length := by
  intro its
  induction its with
  | nil => intro _ nid; rfl
  | cons item rest ih =>
    intro hv nid
    have hs := hv item (List.mem_cons_self _ _)
    cases hf : findProduct ps item.product_id with
    | none => rw [hf] at hs; cases hs
    | some p =>
      simp only [mkItems, hf, List.singleton_append, List.length_cons]
      rw [ih (fun a ha => hv a (List.mem_cons_of_mem _ ha))]

/-! Lemmas about the validation loop. -/

theorem validateItems_ok_total (ps : List Product) :
    ∀ (its : List ItemReq) (acc total : ℚ),
      validateItems ps its acc = .ok total → total = acc + itemsTotal ps its := by
  intro its
  induction its with
  | nil =>
    intro acc total h
    simp only [validateItems, Except.ok.injEq] at h
    simp [itemsTotal, ← h]
  | cons item rest ih =>
    intro acc total h
    cases hf : findProduct ps item.product_id with
    | none => simp only [validateItems, hf] at h; cases h
    | some p =>
      simp only [validateItems, hf] at h
      by_cases hst : p.stock_quantity < item.quantity
      · rw [if_pos hst] at h; cases h
      · rw [if_neg hst] at h
        have := ih _ _ h
        simp only [itemsTotal, hf]
        rw [this]
        ring

theorem validateItems_ok_all (ps : List Product) :
    ∀ (its : List ItemReq) (acc total : ℚ),
      validateItems ps its acc = .ok total → its.all (itemOK ps) = true := by
  intro its
  induction its with
  | nil => intro acc total _; rfl
  | cons item rest ih =>
    intro acc total h
    cases hf : findProduct ps item.product_id with
    | none => simp only [validateItems, hf] at h; cases h
    | some p =>
      simp only [validateItems, hf] at h
      by_cases hst : p.stock_quantity < item.quantity
      · rw [if_pos hst] at h; cases h
      · rw [if_neg hst] at h
        have hrest := ih _ _ h
        have hok : itemOK ps item = true := by
          simp [itemOK, hf]
          omega
        simp [List.all_cons, hok, hrest]

theorem validateItems_ok_of_all (ps : List Product) :
    ∀ (its : List ItemReq) (acc : ℚ),
      its.all (itemOK ps) = true →
      validateItems ps its acc = .ok (acc + itemsTotal ps its) := by
  intro its
  induction its with
  | nil => intro acc _; simp [validateItems, itemsTotal]
  | cons item rest ih =>
    intro acc h
    rw [List.all_cons, Bool.and_eq_true] at h
    rcases h with ⟨hok, hrest⟩
    simp only [itemOK] at hok
    cases hf : findProduct ps item.product_id with
    | none => rw [hf] at hok; cases hok
    | some p =>
      rw [hf] at hok
      have hle : item.quantity ≤ p.stock_quantity := of_decide_eq_true hok
      simp only [validateItems, hf, if_neg (not_lt.mpr hle)]
      rw [ih _ hrest]
      simp only [itemsTotal, hf]
      congr 1
      ring

theorem validateItems_err_shape (ps : List Product) :
    ∀ (its : List ItemReq) (acc : ℚ) (e : CreateErr),
      validateItems ps its acc = .error e →
      (∃ pid, e = .productNotFound pid) ∨ (∃ nm, e = .insufficientStock nm) := by
  intro its
  induction its with
  | nil => intro acc e h; cases h
  | cons item rest ih =>
    intro acc e h
    cases hf : findProduct ps item.product_id with
    | none =>
      simp only [validateItems, hf] at h
      exact Or.inl ⟨item.product_id, (Except.error.injEq _ _).mp h.symm⟩
    | some p =>
      simp only [validateItems, hf] at h
      by_cases hst : p.stock_quantity < item.quantity
      · rw [if_pos hst] at h
        exact Or.inr ⟨p.product_name, (Except.error.injEq _ _).mp h.symm⟩
      · rw [if_neg hst] at h
        exact ih _ _ h

theorem validateItems_all_isSome (ps : List Product) {its : List ItemReq}
    (h : its.all (itemOK ps) = true) :
    ∀ item ∈ its, (findProduct ps item.product_id).isSome = true := by
  intro item hm
  have := List.all_eq_true.mp h item hm
  simp only [itemOK] at this
  cases hf : findProduct ps item.product_id with
  | none => rw [hf] at this; cases this
  | some p => rfl

/-! Lemmas about the mutation loops. -/

theorem insertItems_ok_eq (oid : Int) :
    ∀ (its : List ItemReq) (st st1 : DBState),
      insertItems oid st its = .ok st1 →
      st1 = { st with
        products := decAll its st.products,
        order_items := st.order_items ++ mkItems st.products oid st.next_order_item_id its,
        next_order_item_id := st.next_order_item_id + its.length } := by
  intro its
  induction its with
  | nil =>
    intro st st1 h
    simp only [insertItems, Except.ok.injEq] at h
    rw [← h]
    cases st
    simp [decAll_nil, mkItems]
  | cons item rest ih =>
    intro st st1 h
    cases hf : findProduct st.products item.product_id with
    | none => simp only [insertItems, hf] at h; cases h
    | some product =>
      simp only [insertItems, hf] at h
      have hstep := ih _ _ h
      rw [hstep]
      have hmk : mkItems
          (st.products.map (fun p =>
            if p.product_id == item.product_id then
              { p with stock_quantity := p.stock_quantity - item.quantity } else p))
          oid (st.next_order_item_id + 1) rest
          = mkItems st.products oid (st.next_order_item_id + 1) rest :=
        mkItems_map (stock_update_id item) (stock_update_price item) st.products oid rest _
      rw [hmk, decAll_cons]
      simp only [DBState.mk.injEq, true_and, and_true]
      refine ⟨?_, ?_⟩
      · rw [List.append_assoc]
        congr 1
        simp [mkItems, hf]
      · simp only [List.length_cons]
        push_cast
        omega

theorem insertItems_ok_of_valid (oid : Int) :
    ∀ (its : List ItemReq) (st : DBState),
      (∀ item ∈ its, (findProduct st.products item.product_id).isSome = true) →
      ∃ st1, insertItems oid st its = .ok st1 := by
  intro its
  induction its with
  | nil => intro st _; exact ⟨st, rfl⟩
  | cons item rest ih =>
    intro st hv
    have hs := hv item (List.mem_cons_self _ _)
    cases hf : findProduct st.products item.product_id with
    | none => rw [hf] at hs; cases hs
    | some product =>
      simp only [insertItems, hf]
      apply ih
      intro a ha
      rw [findProduct_map_isSome (stock_update_id item)]
      exact hv a (List.mem_cons_of_mem _ ha)

theorem restoreItems_ok_eq :
    ∀ (rows : List OrderItem) (ps ps1 : List Product),
      restoreItems ps rows = .ok ps1 → ps1 = incAll rows ps := by
  intro rows
  induction rows with
  | nil =>
    intro ps ps1 h
    simp only [restoreItems, Except.ok.injEq] at h
    rw [← h, incAll_nil]
  | cons item rest ih =>
    intro ps ps1 h
    cases hf : findProduct ps item.product_id with
    | none => simp only [restoreItems, hf] at h; cases h
    | some p =>
      simp only [restoreItems, hf] at h
      rw [ih _ _ h, incAll_cons]

theorem restoreItems_ok_of_valid :
    ∀ (rows : List OrderItem) (ps : List Product),
      (∀ it ∈ rows, (findProduct ps it.product_id).isSome = true) →
      ∃ ps1, restoreItems ps rows = .ok ps1 := by
  intro rows
  induction rows with
  | nil => intro ps _; exact ⟨ps, rfl⟩
  | cons item rest ih =>
    intro ps hv
    have hs := hv item (List.mem_cons_self _ _)
    cases hf : findProduct ps item.product_id with
    | none => rw [hf] at hs; cases hs
    | some p =>
      simp only [restoreItems, hf]
      apply ih
      intro a ha
      rw [findProduct_map_isSome (stock_restore_id item)]
      exact hv a (List.mem_cons_of_mem _ ha)

/-! The two directions of the success behaviour of `create_order`. -/

theorem create_order_success_eq
    (today : PyDate) (st : DBState) (req : OrderReq)
    (c : Int) (ds : String) (d : PyDate) (its : List ItemReq)
    (hc : req.customer_id = some c) (hc0 : c ≠ 0)
    (hds : req.order_date = some ds)
    (hits : req.items = some its) (hne : its ≠ [])
    (hlen : its.length ≤ 5)
    (hd : fromisoformat ds = some d)
    (hpast : dateLt d today = false)
    (hok : its.all (itemOK st.products) = true)
    (hcust : customerExists st.customers c = true) :
    create_order today st req = (.created st.next_order_id, createdState st c d its) := by
  have htr1 : truthyId (some c) = true := by simp [truthyId, hc0]
  have htr2 : truthyStr (some ds) = true := by
    simp only [truthyStr, bne_iff_ne, ne_eq, decide_not]
    intro he
    rw [he] at hd
    cases hd
  have htr3 : truthyItems (some its) = true := by
    simp [truthyItems, List.isEmpty_iff, hne]
  have hlen' : ¬(5 < its.length) := by omega
  have hval : validateItems st.products its 0 = .ok (0 + itemsTotal st.products its) :=
    validateItems_ok_of_all st.products its 0 hok
  obtain ⟨st1, hins⟩ :=
    insertItems_ok_of_valid st.next_order_id its st (validateItems_all_isSome st.products hok)
  have hins_eq := insertItems_ok_eq st.next_order_id its st st1 hins
  simp only [create_order, hc, hds, hits, htr1, htr2, htr3, Bool.and_self, Bool.not_true,
    Bool.false_eq_true, if_false, Option.getD_some, hlen', hd, hpast, hval, hcust, hins,
    Bool.and_true, Bool.true_and]
  rw [hins_eq]
  simp only [createdState, zero_add]

theorem create_order_created_inv
    (today : PyDate) (st : DBState) (req : OrderReq) (oid : Int) (st1 : DBState)
    (h : create_order today st req = (.created oid, st1)) :
    ∃ c ds d its,
      req.customer_id = some c ∧ c ≠ 0 ∧
      req.order_date = some ds ∧
      req.items = some its ∧ its ≠ [] ∧ its.length ≤ 5 ∧
      fromisoformat ds = some d ∧ dateLt d today = false ∧
      its.all (itemOK st.products) = true ∧
      customerExists st.customers c = true ∧
      oid = st.next_order_id ∧
      st1 = createdState st c d its := by
  rcases req with ⟨ocid, ods, oits⟩
  by_cases h1 : (truthyId ocid && truthyStr ods && truthyItems oits) = true
  case neg =>
    have h1f : (truthyId ocid && truthyStr ods && truthyItems oits) = false :=
      Bool.not_eq_true _ ▸ Bool.eq_false_iff.mpr h1
    simp [create_order, h1f] at h
  case pos =>
    rw [Bool.and_eq_true, Bool.and_eq_true] at h1
    rcases h1 with ⟨⟨h11, h12⟩, h13⟩
    cases ocid with
    | none => cases h11
    | some c =>
    cases ods with
    | none => cases h12
    | some ds =>
    cases oits with
    | none => cases h13
    | some its =>
    have hc0 : c ≠ 0 := by simpa [truthyId] using h11
    have hne : its ≠ [] := by
      simp only [truthyItems, Bool.not_eq_true'] at h13
      exact fun he => by rw [he] at h13; cases h13
    have hcond : (truthyId (some c) && truthyStr (some ds) && truthyItems (some its)) = true := by
      rw [h11, h12, h13]
      rfl
    simp only [create_order, hcond, Bool.not_true, Bool.false_eq_true, if_false,
      Option.getD_some] at h
    by_cases hlen : 5 < its.length
    · rw [if_pos hlen] at h
      simp at h
    · rw [if_neg hlen] at h
      cases hfi : fromisoformat ds with
      | none => simp only [hfi] at h; simp at h
      | some d =>
      simp only [hfi] at h
      cases hpast : dateLt d today with
      | true => rw [hpast] at h; simp at h
      | false =>
      rw [hpast] at h
      simp only [Bool.false_eq_true, if_false] at h
      cases hval : validateItems st.products its 0 with
      | error e => simp only [hval] at h; simp at h
      | ok total =>
      simp only [hval] at h
      cases hcu : customerExists st.customers c with
      | false => rw [hcu] at h; simp at h
      | true =>
      rw [hcu] at h
      simp only [Bool.not_true, Bool.false_eq_true, if_false] at h
      cases hins : insertItems st.next_order_id st its with
      | error m => simp only [hins] at h; simp at h
      | ok stX =>
      simp only [hins] at h
      rw [Prod.mk.injEq] at h
      rcases h with ⟨ho, hs⟩
      have hoid : oid = st.next_order_id := ((CreateOutcome.created.injEq _ _).mp ho).symm
      have htot : total = 0 + itemsTotal st.products its :=
        validateItems_ok_total st.products its 0 total hval
      have hok : its.all (itemOK st.products) = true :=
        validateItems_ok_all st.products its 0 total hval
      refine ⟨c, ds, d, its, rfl, hc0, rfl, rfl, hne, by omega, hfi, hpast, hok, hcu, hoid, ?_⟩
      rw [← hs, insertItems_ok_eq st.next_order_id its st stX hins, htot]
      simp only [createdState, zero_add]

theorem findProduct_self_of_nodup {ps : List Product}
    (hnd : (ps.map (fun p => p.product_id)).Nodup) {q : Product} (hq : q ∈ ps) :
    findProduct ps q.product_id = some q := by
  induction ps with
  | nil => cases hq
  | cons p rest ih =>
    rw [List.map_cons, List.nodup_cons] at hnd
    rcases List.mem_cons.mp hq with rfl | hq2
    · simp [findProduct, List.find?_cons]
    · have hne : (p.product_id == q.product_id) = false := by
        refine beq_eq_false_iff_ne.mpr (fun he => hnd.1 ?_)
        rw [he]
        exact List.mem_map_of_mem _ hq2
      simp only [findProduct, List.find?_cons, hne]
      exact ih hnd.2 hq2

theorem create_order_state_cases (today : PyDate) (st : DBState) (req : OrderReq) :
    (∃ oid st1, create_order today st req = (.created oid, st1)) ∨
    (create_order today st req).2 = st := by
  rcases req with ⟨ocid, ods, oits⟩
  simp only [create_order]
  split
  · exact Or.inr rfl
  · split
    · exact Or.inr rfl
    · split
      · exact Or.inr rfl
      · split
        · exact Or.inr rfl
        · split
          · exact Or.inr rfl
          · split
            · exact Or.inr rfl
            · split
              · exact Or.inr rfl
              · exact Or.inl ⟨_, _, rfl⟩

theorem create_order_error_eq (today : PyDate) (st : DBState) (req : OrderReq)
    (e : CreateErr) (st1 : DBState)
    (h : create_order today st req = (.error e, st1)) :
    (e = .missingFields ∧
      (truthyId req.customer_id && truthyStr req.order_date && truthyItems req.items) = false) ∨
    (∃ its, req.items = some its ∧
      (truthyId req.customer_id && truthyStr req.order_date && truthyItems req.items) = true ∧
      ((e = .tooManyItems ∧ 5 < its.length) ∨
       (its.length ≤ 5 ∧
        (e = .pastDate ∨ validateItems st.products its 0 = .error e)))) := by
  rcases req with ⟨ocid, ods, oits⟩
  by_cases h1 : (truthyId ocid && truthyStr ods && truthyItems oits) = true
  case neg =>
    have h1f : (truthyId ocid && truthyStr ods && truthyItems oits) = false :=
      Bool.eq_false_iff.mpr h1
    simp only [create_order, h1f, Bool.not_false, if_true] at h
    rw [Prod.mk.injEq] at h
    exact Or.inl ⟨((CreateOutcome.error.injEq _ _).mp h.1).symm, h1f⟩
  case pos =>
    rw [Bool.and_eq_true, Bool.and_eq_true] at h1
    rcases h1 with ⟨⟨h11, h12⟩, h13⟩
    cases ocid with
    | none => cases h11
    | some c =>
    cases ods with
    | none => cases h12
    | some ds =>
    cases oits with
    | none => cases h13
    | some its =>
    have hcond : (truthyId (some c) && truthyStr (some ds) && truthyItems (some its)) = true := by
      rw [h11, h12, h13]
      rfl
    refine Or.inr ⟨its, rfl, hcond, ?_⟩
    simp only [create_order, hcond, Bool.not_true, Bool.false_eq_true, if_false,
      Option.getD_some] at h
    by_cases hlen : 5 < its.length
    · rw [if_pos hlen] at h
      rw [Prod.mk.injEq] at h
      exact Or.inl ⟨((CreateOutcome.error.injEq _ _).mp h.1).symm, hlen⟩
    · rw [if_neg hlen] at h
      refine Or.inr ⟨by omega, ?_⟩
      cases hfi : fromisoformat ds with
      | none => simp only [hfi] at h; simp at h
      | some d =>
      simp only [hfi] at h
      cases hpast : dateLt d today with
      | true => rw [hpast] at h; simp only [if_true] at h; rw [Prod.mk.injEq] at h
                exact Or.inl ((CreateOutcome.error.injEq _ _).mp h.1).symm
      | false =>
      rw [hpast] at h
      simp only [Bool.false_eq_true, if_false] at h
      cases hval : validateItems st.products its 0 with
      | error e0 =>
        simp only [hval] at h
        rw [Prod.mk.injEq] at h
        have he : e0 = e := (CreateOutcome.error.injEq _ _).mp h.1
        exact Or.inr (congrArg Except.error he)
      | ok total =>
      simp only [hval] at h
      cases hcu : customerExists st.customers c with
      | false => rw [hcu] at h; simp at h
      | true =>
      rw [hcu] at h
      simp only [Bool.not_true, Bool.false_eq_true, if_false] at h
      cases hins : insertItems st.next_order_id st its with
      | error m => simp only [hins] at h; simp at h
      | ok stX => simp only [hins] at h; simp at h

/-! Claim C1. -/

/-- C1 (amended): for every `create_order` request with a present,
non-zero customer identifier that references an existing customer, a
parseable order date not earlier than the current date, and an item
list of length 1 to 5 in which every item references an existing
product whose stock covers the requested quantity, the call succeeds
with HTTP 201 returning the new order id; the stored order has
status "Pending" and `total_amount` equal to the exact sum over items
of price at validation time times quantity; one `OrderItem` row per
item is appended snapshotting the product price; and every product's
stock decreases by exactly the total quantity the request asks of
it. -/
theorem create_order_valid_request_success
    (today : PyDate) (st : DBState) (req : OrderReq)
    (c : Int) (ds : String) (d : PyDate) (its : List ItemReq)
    (hc : req.customer_id = some c) (hc0 : c ≠ 0)
    (hcust : customerExists st.customers c = true)
    (hds : req.order_date = some ds)
    (hd : fromisoformat ds = some d) (hpast : dateLt d today = false)
    (hits : req.items = some its)
    (hlen1 : 1 ≤ its.length) (hlen5 : its.length ≤ 5)
    (hok : its.all (itemOK st.products) = true) :
    ∃ st1,
      create_order today st req = (.created st.next_order_id, st1) ∧
      createStatus (.created st.next_order_id) = 201 ∧
      (∃ o ∈ st1.orders, o.order_id = st.next_order_id ∧ o.customer_id = c ∧
        o.order_date = d ∧ o.status = "Pending" ∧
        o.total_amount = itemsTotal st.products its) ∧
      st1.order_items =
        st.order_items ++ mkItems st.products st.next_order_id st.next_order_item_id its ∧
      (mkItems st.products st.next_order_id st.next_order_item_id its).length = its.length ∧
      (∀ p ∈ st.products,
        ({ p with stock_quantity := p.stock_quantity - netQty its p.product_id } : Product)
          ∈ st1.products) := by
  have hne : its ≠ [] := by
    intro he
    rw [he] at hlen1
    simp at hlen1
  have heq := create_order_success_eq today st req c ds d its hc hc0 hds hits hne hlen5 hd
    hpast hok hcust
  refine ⟨createdState st c d its, heq, rfl, ?_, rfl, ?_, ?_⟩
  · refine ⟨_, List.mem_append_right _ (List.mem_singleton.mpr rfl), rfl, rfl, rfl, rfl, rfl⟩
  · exact mkItems_length st.products st.next_order_id its
      (validateItems_all_isSome st.products hok) st.next_order_item_id
  · intro p hp
    exact List.mem_map_of_mem _ hp

/-- C1 counterexample: the claim as stated fails.  First, a request
whose customer identifier is present (value 0, a row with that id even
exists) and which is otherwise fully valid is rejected with the
missing-field error, because Python truthiness treats 0 as absent.
Second, a fully valid request naming a customer id no row carries does
not return 201: the foreign-key constraint fires and the request dies
with an uncaught exception (HTTP 500). -/
theorem create_order_present_customer_not_sufficient :
    create_order today0 stZ reqZero = (.error .missingFields, stZ) ∧
    create_order today0 st0 reqGhost =
      (.exception "IntegrityError: insert into orders violates foreign key constraint orders_customer_id_fkey",
       st0) := by
  constructor
  · rfl
  · decide

/-- Witness for C1: the amended theorem applied to the concrete base
state and valid request. -/
theorem create_order_valid_request_success_witness :
    (create_order today0 st0 req0).1 = .created 1 := by
  obtain ⟨st1, h1, -⟩ := create_order_valid_request_success today0 st0 req0 1 "2025-10-12"
    ⟨2025, 10, 12⟩ [{ product_id := 1, quantity := 3 }] rfl (by decide) (by decide) rfl
    (by decide) (by decide) rfl (by decide) (by decide) (by decide)
  rw [h1]
  rfl

/-! Claim C10. -/

/-- C10: stock is validated per item, not cumulatively.  Whenever every
item of the list individually references an existing product whose
current stock covers that item's own quantity — even if several items
name the same product and their sum exceeds its stock — the validation
loop passes, and on success the product's stock is decremented by the
sum of all those quantities. -/
theorem create_order_stock_checked_per_item
    (today : PyDate) (st : DBState) (req : OrderReq)
    (c : Int) (ds : String) (d : PyDate) (its : List ItemReq)
    (hc : req.customer_id = some c) (hc0 : c ≠ 0)
    (hcust : customerExists st.customers c = true)
    (hds : req.order_date = some ds)
    (hd : fromisoformat ds = some d) (hpast : dateLt d today = false)
    (hits : req.items = some its)
    (hlen1 : 1 ≤ its.length) (hlen5 : its.length ≤ 5)
    (hok : its.all (itemOK st.products) = true) :
    validateItems st.products its 0 = .ok (0 + itemsTotal st.products its) ∧
    ∃ st1, create_order today st req = (.created st.next_order_id, st1) ∧
      ∀ p ∈ st.products,
        ({ p with stock_quantity := p.stock_quantity - netQty its p.product_id } : Product)
          ∈ st1.products := by
  have hne : its ≠ [] := by
    intro he
    rw [he] at hlen1
    simp at hlen1
  refine ⟨validateItems_ok_of_all st.products its 0 hok, createdState st c d its,
    create_order_success_eq today st req c ds d its hc hc0 hds hits hne hlen5 hd hpast hok hcust,
    ?_⟩
  intro p hp
  exact List.mem_map_of_mem _ hp

/-- Witness for C10: in the base state the widget has stock 10, and the
duplicate request asks for 6 + 6 = 12 of it; each item alone passes the
per-item check, the order is created, and the widget row ends with
stock −2. -/
theorem create_order_stock_checked_per_item_witness :
    ∃ st1, create_order today0 st0 reqDup = (.created 1, st1) ∧
      ({ widget with stock_quantity := -2 } : Product) ∈ st1.products := by
  obtain ⟨-, st1, h1, hmem⟩ := create_order_stock_checked_per_item today0 st0 reqDup 1
    "2025-10-12" ⟨2025, 10, 12⟩
    [{ product_id := 1, quantity := 6 }, { product_id := 1, quantity := 6 }] rfl (by decide)
    (by decide) rfl (by decide) (by decide) rfl (by decide) (by decide) (by decide)
  refine ⟨st1, h1, ?_⟩
  have hw : widget ∈ st0.products := by
    simp [st0]
  have h2 := hmem widget hw
  have h3 : ({ widget with stock_quantity :=
      widget.stock_quantity - netQty [{ product_id := 1, quantity := 6 },
        { product_id := 1, quantity := 6 }] widget.product_id } : Product)
      = ({ widget with stock_quantity := -2 } : Product) := by decide
  rw [← h3]
  exact h2

/-! Claim C6. -/

/-- C6: every successful `create_order` yields an order row whose
`customer_id` is the identifier of a customer present in the state —
in this code base not because the handler checks it, but because the
foreign-key constraint aborts the flush otherwise. -/
theorem created_order_references_existing_customer
    (today : PyDate) (st : DBState) (req : OrderReq) (oid : Int) (st1 : DBState)
    (h : create_order today st req = (.created oid, st1)) :
    ∃ o ∈ st1.orders, o.order_id = oid ∧
      ∃ cu ∈ st.customers, cu.customer_id = o.customer_id := by
  obtain ⟨c, ds, d, its, hc, hc0, hds, hits, hne, hlen, hfi, hpast, hok, hcu, hoid, hst⟩ :=
    create_order_created_inv today st req oid st1 h
  obtain ⟨cu, hcmem, hcid⟩ := List.any_eq_true.mp hcu
  refine ⟨{ order_id := st.next_order_id, customer_id := c, order_date := d,
            total_amount := itemsTotal st.products its, status := "Pending" }, ?_, hoid.symm,
          cu, hcmem, beq_iff_eq.mp hcid⟩
  rw [hst]
  exact List.mem_append_right _ (List.mem_singleton.mpr rfl)

/-! Claim C2. -/

/-- C2 (amended): every `create_order` request that does not succeed —
in particular every §4.1 validation failure — leaves the entire state
unchanged (no order row, no order-item row, no stock change), and every
handler-produced error response carries status 400.  The one §4.1 check
that does not surface as a 400 response is the unparseable-date case,
which raises an uncaught exception (HTTP 500), still with no state
change. -/
theorem create_order_validation_failure_atomic
    (today : PyDate) (st : DBState) (req : OrderReq)
    (outcome : CreateOutcome) (st1 : DBState)
    (h : create_order today st req = (outcome, st1))
    (hfail : ∀ oid, outcome ≠ .created oid) :
    st1 = st ∧ (∀ e, outcome = .error e → createStatus outcome = 400) := by
  refine ⟨?_, fun e he => by rw [he]; rfl⟩
  rcases create_order_state_cases today st req with ⟨oid, st2, hc⟩ | hst
  · rw [h] at hc
    exact absurd ((Prod.mk.injEq _ _ _ _).mp hc).1 (hfail oid)
  · rw [h] at hst
    exact hst

/-- C2 counterexample: a request failing the §4.1 date validation with
an unparseable (impossible) calendar date does not produce a 400 error
as the claim states: the handler dies with an uncaught `ValueError`
(HTTP 500).  The state is still unchanged. -/
theorem unparseable_date_not_a_400_error :
    create_order today0 st0 reqBadFeb =
      (.exception "ValueError: invalid isoformat string 2025-02-30", st0) ∧
    createStatus (create_order today0 st0 reqBadFeb).1 ≠ 400 := by
  constructor
  · decide
  · decide

/-- Witness for C2: the amended theorem applied to the concrete
six-item request, which fails the item-count validation. -/
theorem create_order_validation_failure_atomic_witness :
    st0 = st0 ∧ (∀ e, CreateOutcome.error CreateErr.tooManyItems = .error e →
      createStatus (CreateOutcome.error CreateErr.tooManyItems) = 400) :=
  create_order_validation_failure_atomic today0 st0 reqSix (.error .tooManyItems) st0
    (by decide) (fun oid h => CreateOutcome.noConfusion h)

/-! Claim C5. -/

/-- C5: the claim says an unparseable order date yields the 400
"invalid date" error.  The code calls `date.fromisoformat` outside any
try/except (line 133), so an unparseable date string instead raises an
uncaught `ValueError`, surfacing as HTTP 500 — contradicting §4.1 of
the spec and the route's own documented response set (201/400).  This
theorem evaluates the handler at such a failing input. -/
theorem unparseable_date_uncaught_valueerror :
    create_order today0 st0 reqBadDate =
      (.exception "ValueError: invalid isoformat string 2025-13-40", st0) ∧
    createStatus (create_order today0 st0 reqBadDate).1 = 500 := by
  constructor
  · decide
  · decide

/-! Claim C7. -/

/-- C7 (amended): `create_order` fails with the missing-required-field
error exactly when one of the three fields is Python-falsy: the
customer identifier absent or 0, the order date absent or the empty
string, or the item list absent or empty.  In particular a request in
which all three fields are present can still fail this validation
(customer id 0), and whenever none of the three is falsy the request
passes this validation. -/
theorem missing_fields_error_iff
    (today : PyDate) (st : DBState) (req : OrderReq) :
    create_order today st req = (.error .missingFields, st) ↔
      (truthyId req.customer_id = false ∨ truthyStr req.order_date = false ∨
       truthyItems req.items = false) := by
  constructor
  · intro h
    rcases create_order_error_eq today st req .missingFields st h with ⟨-, hcond⟩ |
      ⟨its, hits, hcond, hbr⟩
    · by_cases ha : truthyId req.customer_id = true
      · by_cases hb : truthyStr req.order_date = true
        · by_cases hcc : truthyItems req.items = true
          · rw [ha, hb, hcc] at hcond
            cases hcond
          · exact Or.inr (Or.inr (Bool.eq_false_iff.mpr hcc))
        · exact Or.inr (Or.inl (Bool.eq_false_iff.mpr hb))
      · exact Or.inl (Bool.eq_false_iff.mpr ha)
    · rcases hbr with ⟨hmt, -⟩ | ⟨-, hpd | hverr⟩
      · cases hmt
      · cases hpd
      · rcases validateItems_err_shape st.products its 0 _ hverr with ⟨pid, hsh⟩ | ⟨nm, hsh⟩ <;>
          cases hsh
  · intro hdisj
    have hcond : (truthyId req.customer_id && truthyStr req.order_date &&
        truthyItems req.items) = false := by
      rcases hdisj with hf | hf | hf <;> simp [hf]
    simp [create_order, hcond]

/-- C7 counterexample: all three fields are present and the item list
is non-empty, yet the request is rejected with the missing-field error,
because the present customer identifier is 0 (a customer row with id 0
even exists in the state). -/
theorem present_fields_rejected_as_missing :
    reqZero.customer_id = some 0 ∧ reqZero.order_date = some "2025-10-12" ∧
    reqZero.items = some [{ product_id := 1, quantity := 3 }] ∧
    zeroCustomer ∈ stZ.customers ∧
    create_order today0 stZ reqZero = (.error .missingFields, stZ) := by
  refine ⟨rfl, rfl, rfl, ?_, rfl⟩
  decide

/-- Witness for C7: the amended characterization applied at
concrete inputs. -/
theorem missing_fields_error_iff_witness :
    create_order today0 st0 reqNoCust = (.error .missingFields, st0) :=
  (missing_fields_error_iff today0 st0 reqNoCust).mpr (Or.inl (by decide))

/-! Claim C8. -/

/-- C8: an item list of length strictly greater than 5 fails with the
too-many-items error and leaves the state unchanged (given the earlier
presence validation passes — with more than five items the list itself
is necessarily truthy); an item list of length at most 5 never produces
the too-many-items error. -/
theorem create_order_item_limit
    (today : PyDate) (st : DBState) (req : OrderReq) (its : List ItemReq)
    (h1 : truthyId req.customer_id = true) (h2 : truthyStr req.order_date = true)
    (hits : req.items = some its) :
    (5 < its.length → create_order today st req = (.error .tooManyItems, st)) ∧
    (its.length ≤ 5 → ∀ st1, create_order today st req ≠ (.error .tooManyItems, st1)) := by
  constructor
  · intro hlen
    have hne : its ≠ [] := by
      intro he
      rw [he] at hlen
      simp at hlen
    have h3 : truthyItems (some its) = true := by
      simp [truthyItems, List.isEmpty_iff, hne]
    have hcond : (truthyId req.customer_id && truthyStr req.order_date &&
        truthyItems (some its)) = true := by
      rw [h1, h2, h3]
      rfl
    simp only [create_order, hits, Option.getD_some, hcond, Bool.not_true, Bool.false_eq_true,
      if_false, if_pos hlen]
  · intro hlen st1 h
    rcases create_order_error_eq today st req .tooManyItems st1 h with ⟨he, -⟩ |
      ⟨its2, hits2, -, hbr⟩
    · cases he
    · rw [hits] at hits2
      injection hits2 with hi
      subst hi
      rcases hbr with ⟨-, hlen2⟩ | ⟨-, hpd | hverr⟩
      · omega
      · cases hpd
      · rcases validateItems_err_shape st.products its 0 _ hverr with ⟨pid, hsh⟩ | ⟨nm, hsh⟩ <;>
          cases hsh

/-- Witness for C8: the six-item request is rejected with the
too-many-items error and no state change. -/
theorem create_order_item_limit_witness :
    create_order today0 st0 reqSix = (.error .tooManyItems, st0) := by
  obtain ⟨hgt, -⟩ := create_order_item_limit today0 st0 reqSix
    (List.replicate 6 { product_id := 1, quantity := 1 }) (by decide) (by decide) rfl
  exact hgt (by decide)

/-! Claim C3. -/

theorem delete_createdState
    (st : DBState) (c : Int) (d : PyDate) (its : List ItemReq)
    (hfo : ∀ o ∈ st.orders, o.order_id ≠ st.next_order_id)
    (hfio : ∀ it ∈ st.order_items, it.order_id ≠ st.next_order_id)
    (hvalid : ∀ item ∈ its, (findProduct st.products item.product_id).isSome = true) :
    delete_order (createdState st c d its) st.next_order_id =
      (.deleted,
       { customers := st.customers, products := st.products, orders := st.orders,
         order_items := st.order_items, next_order_id := st.next_order_id + 1,
         next_order_item_id := st.next_order_item_id + its.length }) := by
  have h0 : st.orders.find? (fun o => o.order_id == st.next_order_id) = none :=
    List.find?_eq_none.mpr (fun o ho hbeq => hfo o ho (beq_iff_eq.mp hbeq))
  have hA : st.order_items.filter (fun it => it.order_id == st.next_order_id) = [] :=
    List.filter_eq_nil_iff.mpr (fun it hi hbeq => hfio it hi (beq_iff_eq.mp hbeq))
  have hB : (mkItems st.products st.next_order_id st.next_order_item_id its).filter
      (fun it => it.order_id == st.next_order_id)
      = mkItems st.products st.next_order_id st.next_order_item_id its :=
    List.filter_eq_self.mpr (fun it hi =>
      beq_iff_eq.mpr (mkItems_order_id st.products st.next_order_id its st.next_order_item_id it hi))
  have hC : st.orders.filter (fun o => !(o.order_id == st.next_order_id)) = st.orders :=
    List.filter_eq_self.mpr (fun o ho => by simp [hfo o ho])
  have hD : st.order_items.filter (fun it => !(it.order_id == st.next_order_id))
      = st.order_items :=
    List.filter_eq_self.mpr (fun it hi => by simp [hfio it hi])
  have hE : (mkItems st.products st.next_order_id st.next_order_item_id its).filter
      (fun it => !(it.order_id == st.next_order_id)) = [] :=
    List.filter_eq_nil_iff.mpr (fun it hi => by
      simp [mkItems_order_id st.products st.next_order_id its st.next_order_item_id it hi])
  have hvalid2 : ∀ it ∈ mkItems st.products st.next_order_id st.next_order_item_id its,
      (findProduct (decAll its st.products) it.product_id).isSome = true := by
    intro it hi
    obtain ⟨item, hitem, hpid⟩ :=
      mkItems_product_ids st.products st.next_order_id its st.next_order_item_id it hi
    have hmapiso := @findProduct_map_isSome
      (fun p => { p with stock_quantity := p.stock_quantity - netQty its p.product_id })
      (fun p => rfl) st.products item.product_id
    rw [hpid, decAll, hmapiso]
    exact hvalid item hitem
  obtain ⟨ps1, hres⟩ := restoreItems_ok_of_valid
    (mkItems st.products st.next_order_id st.next_order_item_id its)
    (decAll its st.products) hvalid2
  have hps1 : ps1 = st.products := by
    rw [restoreItems_ok_eq _ _ _ hres]
    exact incAll_decAll
      (netQtyRows_mkItems st.products st.next_order_id its hvalid st.next_order_item_id)
      st.products
  have hF : List.filter (fun o => !(o.order_id == st.next_order_id))
      [{ order_id := st.next_order_id, customer_id := c, order_date := d,
         total_amount := itemsTotal st.products its, status := "Pending" }] = ([] : List Order) := by
    simp
  simp only [delete_order, createdState, List.find?_append, h0, Option.none_or,
    List.find?_cons, beq_self_eq_true, List.filter_append, hA, hB, List.nil_append, hres,
    hps1, hC, hD, hE, hF, List.append_nil]

/-- C3: deleting an order just created by `create_order` restores every
product's stock to its pre-creation value and removes the order row and
all its order-item rows (the whole table contents return to their
pre-creation values); deleting the same identifier again fails with
not-found (404) and no side effects, as does `delete_order` on any
identifier that no order row carries. -/
theorem create_then_delete_roundtrip
    (today : PyDate) (st : DBState) (req : OrderReq) (oid : Int) (st1 : DBState)
    (hfresh : freshState st = true)
    (h : create_order today st req = (.created oid, st1)) :
    (∃ st2, delete_order st1 oid = (.deleted, st2) ∧
      st2.products = st.products ∧ st2.orders = st.orders ∧
      st2.order_items = st.order_items ∧
      delete_order st2 oid = (.notFound, st2) ∧
      deleteStatus (.notFound) = 404) ∧
    (∀ (s : DBState) (i : Int), s.orders.find? (fun o => o.order_id == i) = none →
      delete_order s i = (.notFound, s)) := by
  have hnotfound : ∀ (s : DBState) (i : Int),
      s.orders.find? (fun o => o.order_id == i) = none → delete_order s i = (.notFound, s) := by
    intro s i hn
    simp [delete_order, hn]
  refine ⟨?_, hnotfound⟩
  obtain ⟨c, ds, d, its, hc, hc0, hds, hits, hne, hlen, hfi, hpast, hok, hcu, hoid, hst⟩ :=
    create_order_created_inv today st req oid st1 h
  subst hoid
  subst hst
  rw [freshState, Bool.and_eq_true, List.all_eq_true, List.all_eq_true] at hfresh
  obtain ⟨hfo, hfio⟩ := hfresh
  have hfo' : ∀ o ∈ st.orders, o.order_id ≠ st.next_order_id := fun o ho => by
    have := of_decide_eq_true (hfo o ho)
    omega
  have hfio' : ∀ it ∈ st.order_items, it.order_id ≠ st.next_order_id := fun it hi => by
    have := of_decide_eq_true (hfio it hi)
    omega
  have hvalid := validateItems_all_isSome st.products hok
  have hdel := delete_createdState st c d its hfo' hfio' hvalid
  refine ⟨_, hdel, rfl, rfl, rfl, ?_, rfl⟩
  exact hnotfound _ _
    (List.find?_eq_none.mpr (fun o ho hbeq => hfo' o ho (beq_iff_eq.mp hbeq)))

/-- Witness for C3: the concrete order created by `req0` on the base
state is deleted, and the tables return to their base contents. -/
theorem create_then_delete_roundtrip_witness :
    ∃ st2, delete_order
        (createdState st0 1 ⟨2025, 10, 12⟩ [{ product_id := 1, quantity := 3 }]) 1
        = (.deleted, st2) ∧
      st2.products = st0.products ∧ st2.orders = st0.orders ∧
      st2.order_items = st0.order_items := by
  obtain ⟨⟨st2, h1, h2, h3, h4, -, -⟩, -⟩ := create_then_delete_roundtrip today0 st0 req0 1
    (createdState st0 1 ⟨2025, 10, 12⟩ [{ product_id := 1, quantity := 3 }]) (by decide)
    (create_order_success_eq today0 st0 req0 1 "2025-10-12" ⟨2025, 10, 12⟩
      [{ product_id := 1, quantity := 3 }] rfl (by decide) rfl rfl (by decide) (by decide)
      (by decide) (by decide) (by decide) (by decide))
  exact ⟨st2, h1, h2, h3, h4⟩

/-! Claim C4. -/

/-- C4 counterexample: starting from the base state, in which every
product has non-negative stock, the request whose two items each ask
for 6 widgets (stock 10) succeeds, and afterwards a product row carries
negative stock: the per-item validation admits the duplicate items and
the mutation loop decrements cumulatively. -/
theorem duplicate_items_drive_stock_negative :
    st0.products.all (fun p => decide (0 ≤ p.stock_quantity)) = true ∧
    (create_order today0 st0 reqDup).1 = .created 1 ∧
    (create_order today0 st0 reqDup).2.products.any (fun p => decide (p.stock_quantity < 0))
      = true := by
  refine ⟨by decide, by decide, by decide⟩

/-- C4 (amended): non-negativity of stock is preserved by every
successful `delete_order` in a state whose recorded order-item
quantities are non-negative (as §3 requires), and by every successful
`create_order` whose item list references pairwise-distinct products;
the restriction to distinct products is forced by the counterexample,
in which duplicate items drive a stock negative. -/
theorem stock_nonneg_preserved
    (st : DBState) (hnn : ∀ p ∈ st.products, 0 ≤ p.stock_quantity) :
    (∀ (today : PyDate) (req : OrderReq) (its : List ItemReq) (oid : Int) (st1 : DBState),
        req.items = some its →
        (its.map (fun it => it.product_id)).Nodup →
        (st.products.map (fun p => p.product_id)).Nodup →
        create_order today st req = (.created oid, st1) →
        ∀ p ∈ st1.products, 0 ≤ p.stock_quantity) ∧
    (∀ (oid : Int) (st1 : DBState),
        (∀ it ∈ st.order_items, 0 ≤ it.quantity) →
        delete_order st oid = (.deleted, st1) →
        ∀ p ∈ st1.products, 0 ≤ p.stock_quantity) := by
  constructor
  · intro today req its oid st1 hits hnd hndp h p hp
    obtain ⟨c, ds, d, its2, hc, hc0, hds, hits2, hne, hlen, hfi, hpast, hok, hcu, hoid, hst⟩ :=
      create_order_created_inv today st req oid st1 h
    rw [hits] at hits2
    injection hits2 with hi
    subst hi
    subst hst
    simp only [createdState, decAll] at hp
    obtain ⟨q, hq, hpe⟩ := List.mem_map.mp hp
    rw [← hpe]
    simp only
    have hnq := hnn q hq
    rcases netQty_nodup hnd q.product_id with h0 | ⟨item, hitem, hpid, hqn⟩
    · rw [h0]
      omega
    · have hqfind : findProduct st.products q.product_id = some q :=
        findProduct_self_of_nodup hndp hq
      have hitemok := List.all_eq_true.mp hok item hitem
      simp only [itemOK, hpid, hqfind] at hitemok
      have hle : item.quantity ≤ q.stock_quantity := of_decide_eq_true hitemok
      rw [hqn]
      omega
  · intro oid st1 hq h p hp
    cases hfind : st.orders.find? (fun o => o.order_id == oid) with
    | none => simp only [delete_order, hfind] at h; simp at h
    | some o =>
      cases hres : restoreItems st.products
          (st.order_items.filter (fun it => it.order_id == oid)) with
      | error m => simp only [delete_order, hfind, hres] at h; simp at h
      | ok ps1 =>
        simp only [delete_order, hfind, hres] at h
        rw [Prod.mk.injEq] at h
        obtain ⟨-, hs⟩ := h
        rw [← hs] at hp
        have hp1 : p ∈ ps1 := hp
        rw [restoreItems_ok_eq _ _ _ hres] at hp1
        obtain ⟨q, hqmem, hpe⟩ := List.mem_map.mp hp1
        rw [← hpe]
        simp only
        have h1 := hnn q hqmem
        have h2 := netQtyRows_nonneg
          (st.order_items.filter (fun it => it.order_id == oid))
          (fun it hi => hq it (List.mem_filter.mp hi).1) q.product_id
        omega

/-- Witness for C4: the amended theorem applied to the base state and
the single-item request; the widget row ends with stock 7, which is
non-negative. -/
theorem stock_nonneg_preserved_witness :
    0 ≤ ({ widget with stock_quantity := 7 } : Product).stock_quantity := by
  obtain ⟨h1, -⟩ := stock_nonneg_preserved st0 (by decide)
  exact h1 today0 req0 [{ product_id := 1, quantity := 3 }] 1
    (createdState st0 1 ⟨2025, 10, 12⟩ [{ product_id := 1, quantity := 3 }]) rfl (by decide)
    (by decide)
    (create_order_success_eq today0 st0 req0 1 "2025-10-12" ⟨2025, 10, 12⟩
      [{ product_id := 1, quantity := 3 }] rfl (by decide) rfl rfl (by decide) (by decide)
      (by decide) (by decide) (by decide) (by decide))
    { widget with stock_quantity := 7 } (by decide)

/-! Claim C9. -/

/-- C9: a missing or empty query string is rejected with the 400
"Query is required" error independently of the two external
collaborators (the completion service is never consulted: the result
is the same for any pair of oracles); a failure of the translation or
of the SQL execution surfaces the underlying error message verbatim as
a 400 response with no retry; on success the handler returns the
trimmed generated SQL together with all result rows serialized as
column-name-to-value mappings, with status 200. -/
theorem genai_query_behaviour :
    (∀ (complete complete2 : String → Except String String)
       (execute execute2 : String → Except String (List (List (String × String))))
       (q : Option String),
       truthyStr q = false →
         genai_query q complete execute = .error "Query is required" ∧
         genaiStatus (genai_query q complete execute) = 400 ∧
         genai_query q complete execute = genai_query q complete2 execute2) ∧
    (∀ (complete : String → Except String String)
       (execute : String → Except String (List (List (String × String))))
       (s e : String), s ≠ "" →
       complete (genaiPrompt s) = .error e →
         genai_query (some s) complete execute = .error e ∧ genaiStatus (.error e) = 400) ∧
    (∀ (complete : String → Except String String)
       (execute : String → Except String (List (List (String × String))))
       (s txt e : String), s ≠ "" →
       complete (genaiPrompt s) = .ok txt → execute txt.trim = .error e →
         genai_query (some s) complete execute = .error e ∧ genaiStatus (.error e) = 400) ∧
    (∀ (complete : String → Except String String)
       (execute : String → Except String (List (List (String × String))))
       (s txt : String) (rows : List (List (String × String))), s ≠ "" →
       complete (genaiPrompt s) = .ok txt → execute txt.trim = .ok rows →
         genai_query (some s) complete execute = .ok txt.trim rows ∧
         genaiStatus (.ok txt.trim rows) = 200) := by
  refine ⟨?_, ?_, ?_, ?_⟩
  · intro complete complete2 execute execute2 q hq
    cases q with
    | none => exact ⟨rfl, rfl, rfl⟩
    | some s =>
      have hs : s = "" := by simpa [truthyStr] using hq
      subst hs
      exact ⟨rfl, rfl, rfl⟩
  · intro complete execute s e hs hc
    refine ⟨?_, rfl⟩
    simp only [genai_query, if_neg hs, hc]
  · intro complete execute s txt e hs hc he
    refine ⟨?_, rfl⟩
    simp only [genai_query, if_neg hs, hc, he]
  · intro complete execute s txt rows hs hc he
    refine ⟨?_, rfl⟩
    simp only [genai_query, if_neg hs, hc, he]

/-- Witness for C9: the success branch of the behaviour theorem applied
to concrete constant oracles. -/
theorem genai_query_behaviour_witness :
    genai_query (some "list all products") (fun _ => Except.ok "SELECT 1")
        (fun _ => Except.ok [[("x", "1")]]) = .ok ("SELECT 1".trim) [[("x", "1")]] ∧
    genaiStatus (.ok ("SELECT 1".trim) [[("x", "1")]]) = 200 :=
  (genai_query_behaviour).2.2.2 (fun _ => Except.ok "SELECT 1")
    (fun _ => Except.ok [[("x", "1")]]) "list all products" "SELECT 1" [[("x", "1")]]
    (by decide) rfl rfl

/-- Witness for C6: the invariant evaluated on the concrete successful
creation. -/
theorem created_order_references_existing_customer_witness :
    ∃ o ∈ (createdState st0 1 ⟨2025, 10, 12⟩ [{ product_id := 1, quantity := 3 }]).orders,
      o.order_id = 1 ∧ ∃ cu ∈ st0.customers, cu.customer_id = o.customer_id :=
  created_order_references_existing_customer today0 st0 req0 1
    (createdState st0 1 ⟨2025, 10, 12⟩ [{ product_id := 1, quantity := 3 }])
    (create_order_success_eq today0 st0 req0 1 "2025-10-12" ⟨2025, 10, 12⟩
      [{ product_id := 1, quantity := 3 }] rfl (by decide) rfl rfl (by decide) (by decide)
      (by decide) (by decide) (by decide) (by decide))

end ECommerce

